import Mathlib

/-!
Verification development for the rgl build tool's filesystem
synchronization and orchestration core (`src/fs.rs`, `src/rgl/runner.rs`,
`src/file_watcher.rs`, `src/commands/watch.rs`).

The filesystem is modelled as a finite tree of named entries.  Paths are
lists of components below a common root.  Machine details kept by the
model, because the code's behaviour depends on them:
  - file metadata is (kind, size, modified time); directories report
    size 0, as on the tool's primary platform;
  - `fs::copy` writes the source's size and carries the source's
    modified time to the destination (the platform copy primitive
    preserves the last-write time);
  - the `sync_dir` metadata cache is a path-keyed association list that
    is only ever appended to inside one call, exactly like the global
    `METADATA_CACHE` in `fs.rs`.
The source parallelizes sibling work with `par_bridge`; the model
processes directory entries sequentially in listed order, which is an
admissible schedule (sibling operations touch disjoint paths and the
cache is keyed by path).
-/

abbrev FsPath : Type := List String

/-- Filesystem metadata as used by `sync_dir` in fs.rs: kind, `len()` and
`modified()`.  Directories report size 0 (the primary platform's
behaviour for `Metadata::len` on a directory). -/
structure Metadata where
  isDir : Bool
  size : Nat
  mtime : Nat
  deriving DecidableEq

/-- A filesystem node: a regular file carrying (size, modified time), or a
directory carrying its own modified time and named entries in `read_dir`
order. -/
inductive FsNode where
  | file (size : Nat) (mtime : Nat)
  | dir (mtime : Nat) (entries : List (String × FsNode))

/-- Association lookup among a directory's entries. -/
def findEntry : List (String × FsNode) → String → Option FsNode
  | [], _ => none
  | (n, v) :: rest, name => if n = name then some v else findEntry rest name

/-- Resolve a path below a node. -/
def lookupNode : FsNode → FsPath → Option FsNode
  | n, [] => some n
  | FsNode.file _ _, _ :: _ => none
  | FsNode.dir _ es, name :: rest =>
    match findEntry es name with
    | some child => lookupNode child rest
    | none => none

def FsNode.metadataOf : FsNode → Metadata
  | .file s t => ⟨false, s, t⟩
  | .dir t _ => ⟨true, 0, t⟩

/-- The stat primitive: metadata of the node at a path, if any. -/
def statPath (fs : FsNode) (p : FsPath) : Option Metadata :=
  (lookupNode fs p).map FsNode.metadataOf

/-- Replace (or append) the entry `name` in a directory listing. -/
def setEntry : List (String × FsNode) → String → FsNode → List (String × FsNode)
  | [], name, v => [(name, v)]
  | (n, w) :: rest, name, v =>
    if n = name then (n, v) :: rest else (n, w) :: setEntry rest name v

def removeEntryNamed (es : List (String × FsNode)) (name : String) :
    List (String × FsNode) :=
  es.filter (fun e => e.1 != name)

/-- Remove the node at a path; identity when the path is absent. -/
def removePath : FsNode → FsPath → FsNode
  | n, [] => n
  | FsNode.file s t, _ :: _ => FsNode.file s t
  | FsNode.dir t es, [name] => FsNode.dir t (removeEntryNamed es name)
  | FsNode.dir t es, name :: rest₁ :: rest₂ =>
    match findEntry es name with
    | some child =>
        FsNode.dir t (setEntry es name (removePath child (rest₁ :: rest₂)))
    | none => FsNode.dir t es

/-- Write a node at a path whose parent chain already exists as
directories; `none` when the chain is missing or blocked by a file. -/
def setPath : FsNode → FsPath → FsNode → Option FsNode
  | _, [], v => some v
  | FsNode.file _ _, _ :: _, _ => none
  | FsNode.dir t es, [name], v => some (FsNode.dir t (setEntry es name v))
  | FsNode.dir t es, name :: rest₁ :: rest₂, v =>
    match findEntry es name with
    | some child =>
        (setPath child (rest₁ :: rest₂) v).map
          (fun c => FsNode.dir t (setEntry es name c))
    | none => none

/-- Model of `fs::create_dir_all`: create every missing directory on the
path.  Returns the new root and whether anything was created; `none` when
a path component exists as a regular file. -/
def createDirAll : FsNode → FsPath → Option (FsNode × Bool)
  | n, [] =>
    match n with
    | FsNode.dir t es => some (FsNode.dir t es, false)
    | FsNode.file _ _ => none
  | FsNode.file _ _, _ :: _ => none
  | FsNode.dir t es, name :: rest =>
    match findEntry es name with
    | some child =>
        (createDirAll child rest).map
          (fun r => (FsNode.dir t (setEntry es name r.1), r.2))
    | none =>
        (createDirAll (FsNode.dir 0 []) rest).map
          (fun r => (FsNode.dir t (setEntry es name r.1), true))

inductive FsErr where
  | notFound
  | notADir
  | isADir
  | fuel
  deriving DecidableEq

/-- State threaded through one `sync_dir` invocation: the filesystem, the
global `METADATA_CACHE` (an insert-only path → optional-metadata map) and
a count of the mutating filesystem calls performed (`fs::copy`,
`fs::remove_file`, `rimraf` of an existing path, `create_dir_all` that
actually creates something). -/
structure SyncState where
  fs : FsNode
  cache : List (FsPath × Option Metadata)
  writes : Nat

def cacheFind : List (FsPath × Option Metadata) → FsPath → Option (Option Metadata)
  | [], _ => none
  | (p, m) :: rest, q => if p = q then some m else cacheFind rest q

/-- fs.rs 235-245: consult the cache first; on a miss, stat the path and
insert the result (even a negative one) into the cache. -/
def get_metadata (p : FsPath) (st : SyncState) : Option Metadata × SyncState :=
  match cacheFind st.cache p with
  | some m => (m, st)
  | none =>
    let m := statPath st.fs p
    (m, { st with cache := (p, m) :: st.cache })

/-- Rust's `Option::is_some_and`. -/
def is_some_and (o : Option Metadata) (p : Metadata → Bool) : Bool :=
  match o with
  | some m => p m
  | none => false

/-- fs.rs 247-253: compare two files by size and modified time via the
cache; `false` when either side has no (cached) metadata.  Note the
comparison never checks the cached kind. -/
def compare_files (a b : FsPath) (st : SyncState) : Bool × SyncState :=
  let (ma, st₁) := get_metadata a st
  let (mb, st₂) := get_metadata b st₁
  match ma, mb with
  | some x, some y => (x.size == y.size && x.mtime == y.mtime, st₂)
  | _, _ => (false, st₂)

/-- Model of `fs::remove_file`. -/
def fsRemoveFile (p : FsPath) (st : SyncState) : Except FsErr Unit × SyncState :=
  match lookupNode st.fs p with
  | some (FsNode.file _ _) =>
      (Except.ok (), { st with fs := removePath st.fs p, writes := st.writes + 1 })
  | some (FsNode.dir _ _) => (Except.error FsErr.isADir, st)
  | none => (Except.error FsErr.notFound, st)

/-- Net effect of `rimraf` as invoked from `sync_dir`: whole-subtree
removal, a no-op success on an absent path.  (The permission-recovery
path of `rimraf` itself is modelled separately below.) -/
def rimrafFs (p : FsPath) (st : SyncState) : Except FsErr Unit × SyncState :=
  match lookupNode st.fs p with
  | none => (Except.ok (), st)
  | some _ =>
      (Except.ok (), { st with fs := removePath st.fs p, writes := st.writes + 1 })

/-- Model of `fs::copy src dst`: requires an existing source file and an
existing parent directory for `dst`; overwrites a file but fails on a
directory destination.  The destination receives the source's size and
modified time (the platform copy primitive preserves the last-write
time). -/
def fsCopy (src dst : FsPath) (st : SyncState) : Except FsErr Unit × SyncState :=
  match lookupNode st.fs src with
  | some (FsNode.file s t) =>
    match lookupNode st.fs dst with
    | some (FsNode.dir _ _) => (Except.error FsErr.isADir, st)
    | _ =>
      match setPath st.fs dst (FsNode.file s t) with
      | some fs₂ =>
          (Except.ok (), { st with fs := fs₂, writes := st.writes + 1 })
      | none => (Except.error FsErr.notFound, st)
  | some (FsNode.dir _ _) => (Except.error FsErr.isADir, st)
  | none => (Except.error FsErr.notFound, st)

def fsCreateDirAll (p : FsPath) (st : SyncState) : Except FsErr Unit × SyncState :=
  match createDirAll st.fs p with
  | some (fs₂, created) =>
      (Except.ok (),
       { st with fs := fs₂, writes := st.writes + (if created then 1 else 0) })
  | none => (Except.error FsErr.notADir, st)

/-- Model of `fs::read_dir`: entry names in listed order. -/
def readDirNames (p : FsPath) (st : SyncState) :
    Except FsErr (List String) × SyncState :=
  match lookupNode st.fs p with
  | some (FsNode.dir _ es) => (Except.ok (es.map Prod.fst), st)
  | some (FsNode.file _ _) => (Except.error FsErr.notADir, st)
  | none => (Except.error FsErr.notFound, st)

/-- Does the node at `p` currently exist as a directory on disk (no
cache)?  Used by `copy_dir`, which stats paths directly. -/
def isDirOnDisk (fs : FsNode) (p : FsPath) : Bool :=
  match lookupNode fs p with
  | some (FsNode.dir _ _) => true
  | _ => false

/-- fs.rs 13-28 `copy_dir_impl`: create the destination, then copy every
entry, recursing into directories.  Fuel bounds the recursion depth; all
theorems below evaluate it with ample fuel. -/
def copy_dir : Nat → FsPath → FsPath → SyncState → Except FsErr Unit × SyncState
  | 0, _, _, st => (Except.error FsErr.fuel, st)
  | fuel + 1, fromP, toP, st =>
    match fsCreateDirAll toP st with
    | (Except.error e, st₁) => (Except.error e, st₁)
    | (Except.ok _, st₁) =>
      match readDirNames fromP st₁ with
      | (Except.error e, st₂) => (Except.error e, st₂)
      | (Except.ok names, st₂) =>
        names.foldl
          (fun acc name =>
            match acc with
            | (Except.error e, s) => (Except.error e, s)
            | (Except.ok _, s) =>
              let src := fromP ++ [name]
              let dst := toP ++ [name]
              if isDirOnDisk s.fs src then copy_dir fuel src dst s
              else fsCopy src dst s)
          (Except.ok (), st₂)

/-- fs.rs 255-279, the `sync` pass of `sync_dir`: ensure the target
directory exists (consulting the cache), then walk the source's entries:
a source directory removes a stale target file and recurses; a source
file removes a stale target directory via `rimraf`, then copies unless
`compare_files` judges source and target equal. -/
def syncPass : Nat → FsPath → FsPath → SyncState → Except FsErr Unit × SyncState
  | 0, _, _, st => (Except.error FsErr.fuel, st)
  | fuel + 1, srcP, tgtP, st =>
    let (mt, st₀) := get_metadata tgtP st
    match (if mt.isNone then fsCreateDirAll tgtP st₀ else (Except.ok (), st₀)) with
    | (Except.error e, st₁) => (Except.error e, st₁)
    | (Except.ok _, st₁) =>
      match readDirNames srcP st₁ with
      | (Except.error e, st₂) => (Except.error e, st₂)
      | (Except.ok names, st₂) =>
        names.foldl
          (fun acc name =>
            match acc with
            | (Except.error e, s) => (Except.error e, s)
            | (Except.ok _, s) =>
              let src := srcP ++ [name]
              let tgt := tgtP ++ [name]
              let (ms, s₁) := get_metadata src s
              if is_some_and ms (fun m => m.isDir) then
                let (mt₂, s₂) := get_metadata tgt s₁
                match
                  (if is_some_and mt₂ (fun m => !m.isDir) then fsRemoveFile tgt s₂
                   else (Except.ok (), s₂)) with
                | (Except.error e, s₃) => (Except.error e, s₃)
                | (Except.ok _, s₃) => syncPass fuel src tgt s₃
              else
                let (mt₂, s₂) := get_metadata tgt s₁
                match
                  (if is_some_and mt₂ (fun m => m.isDir) then rimrafFs tgt s₂
                   else (Except.ok (), s₂)) with
                | (Except.error e, s₃) => (Except.error e, s₃)
                | (Except.ok _, s₃) =>
                  let (eq, s₄) := compare_files src tgt s₃
                  if eq then (Except.ok (), s₄) else fsCopy src tgt s₄)
          (Except.ok (), st₂)

/-- fs.rs 282-307, the `cleanup` pass of `sync_dir`: walk the target's
entries; an entry with no corresponding source is removed (`rimraf` when
the cached metadata says directory, `remove_file` otherwise); otherwise
recurse when the cached metadata says directory. -/
def cleanupPass : Nat → FsPath → FsPath → SyncState → Except FsErr Unit × SyncState
  | 0, _, _, st => (Except.error FsErr.fuel, st)
  | fuel + 1, srcP, tgtP, st =>
    match readDirNames tgtP st with
    | (Except.error e, st₁) => (Except.error e, st₁)
    | (Except.ok names, st₁) =>
      names.foldl
        (fun acc name =>
          match acc with
          | (Except.error e, s) => (Except.error e, s)
          | (Except.ok _, s) =>
            let src := srcP ++ [name]
            let tgt := tgtP ++ [name]
            let (mt, s₁) := get_metadata tgt s
            let isDirE := is_some_and mt (fun m => m.isDir)
            let (msrc, s₂) := get_metadata src s₁
            if msrc.isNone then
              if isDirE then rimrafFs tgt s₂ else fsRemoveFile tgt s₂
            else if isDirE then cleanupPass fuel src tgt s₂
            else (Except.ok (), s₂))
        (Except.ok (), st₁)

/-- fs.rs 309-324: the body of `sync_dir` before the cache clear — sync
then cleanup when the target is (per cache) a directory, otherwise a
plain `copy_dir`. -/
def sync_dir_main (fuel : Nat) (srcP tgtP : FsPath) (st : SyncState) :
    Except FsErr Unit × SyncState :=
  let (mt, st₁) := get_metadata tgtP st
  if is_some_and mt (fun m => m.isDir) then
    match syncPass fuel srcP tgtP st₁ with
    | (Except.error e, st₂) => (Except.error e, st₂)
    | (Except.ok _, st₂) => cleanupPass fuel srcP tgtP st₂
  else copy_dir fuel srcP tgtP st₁

/-- fs.rs 231-327 `sync_dir`: run the main body; `METADATA_CACHE.clear()`
runs only when the body succeeded (every error path returns early through
`?` before reaching the clear). -/
def sync_dir (fuel : Nat) (srcP tgtP : FsPath) (st : SyncState) :
    Except FsErr Unit × SyncState :=
  match (sync_dir_main fuel srcP tgtP st).1 with
  | Except.ok _ =>
      (Except.ok (), { (sync_dir_main fuel srcP tgtP st).2 with cache := [] })
  | Except.error e => (Except.error e, (sync_dir_main fuel srcP tgtP st).2)

/-! Concrete trees for exercising `sync_dir`.  `exRootA` has source tree
`A` containing one empty file `x` (size 0, mtime 100) and target tree `B`
containing a stale empty directory `x` whose directory metadata is
(size 0, mtime 100) — an entirely possible on-disk state, since
directories report size 0 and mtime granularity makes coincidences real. -/

def exRootA : FsNode :=
  FsNode.dir 0 [("A", FsNode.dir 0 [("x", FsNode.file 0 100)]),
                ("B", FsNode.dir 0 [("x", FsNode.dir 100 [])])]

def stA : SyncState := ⟨exRootA, [], 0⟩

def callA1 : Except FsErr Unit × SyncState := sync_dir 9 ["A"] ["B"] stA

def callA2 : Except FsErr Unit × SyncState :=
  sync_dir 9 ["A"] ["B"] ⟨callA1.2.fs, callA1.2.cache, 0⟩

/-- Same shape with differing metadata: source file `x` is (size 5,
mtime 200) against the stale target directory `x` (size 0, mtime 100). -/
def exRootC : FsNode :=
  FsNode.dir 0 [("A", FsNode.dir 0 [("x", FsNode.file 5 200)]),
                ("B", FsNode.dir 0 [("x", FsNode.dir 100 [])])]

def callC : Except FsErr Unit × SyncState := sync_dir 9 ["A"] ["B"] ⟨exRootC, [], 0⟩

/-- C1: the claim states that running `sync_dir A B` twice in succession
performs zero file writes on the second call, for any trees A and B.  The
code violates this: on `exRootA` the first call removes the stale target
directory `B/x` but then skips the copy of `A/x`, because
`compare_files` reads the removed directory's metadata from the
`METADATA_CACHE` entry inserted before the `rimraf` and finds it equal to
the source file's (size, mtime).  The first call therefore succeeds while
silently dropping the file, and the second call performs one `fs::copy`
(one write) to restore it. -/
theorem sync_dir_second_call_performs_write :
    callA1.1 = Except.ok () ∧ callA2.1 = Except.ok () ∧ callA2.2.writes = 1 :=
  ⟨rfl, rfl, rfl⟩

/-- C2: the claim states that after a successful `sync_dir A B`, every
file of A exists in B with the same name, size and modified time.  The
code violates this on `exRootA`: the call succeeds, the source file
`A/x` (size 0, mtime 100) exists, yet nothing exists at `B/x` afterwards
— the stale directory was removed and the copy was skipped because
`compare_files` consulted the removed directory's stale cache entry. -/
theorem sync_dir_drops_source_file :
    callA1.1 = Except.ok ()
    ∧ lookupNode exRootA ["A", "x"] = some (FsNode.file 0 100)
    ∧ lookupNode callA1.2.fs ["B", "x"] = none :=
  ⟨rfl, rfl, rfl⟩

/-- C3, counterexample: the claim states the metadata cache is fully
cleared before and after every top-level `sync_dir` call, including calls
that return an error.  On `exRootC` the call fails (the cleanup pass
recurses into `B/x` believing it a directory per its stale cache entry,
and `read_dir` on the freshly copied file errors), and the error path
returns before `METADATA_CACHE.clear()` is reached: the cache still holds
its three entries. -/
theorem sync_dir_error_leaves_cache_populated :
    callC.1 = Except.error FsErr.notADir ∧ callC.2.cache ≠ [] :=
  ⟨rfl, by
    intro h
    have hl : callC.2.cache.length = 3 := rfl
    rw [h] at hl
    exact absurd hl (by decide)⟩

/-- C3, amended: the cache is fully cleared at the end of every
successful top-level `sync_dir` call (the clear is the last action before
returning `Ok`); no clearing happens at the start of a call, and a call
that returns an error leaves the cache populated. -/
theorem sync_dir_clears_cache_on_success (fuel : Nat) (srcP tgtP : FsPath)
    (st : SyncState) (h : (sync_dir fuel srcP tgtP st).1 = Except.ok ()) :
    (sync_dir fuel srcP tgtP st).2.cache = [] := by
  unfold sync_dir at h ⊢
  rcases hr : (sync_dir_main fuel srcP tgtP st).1 with e | u
  · rw [hr] at h
    simp at h
  · rfl

/-- Witness for the amended C3 theorem: a concrete succeeding call
(copying source tree `A` to the absent target `B`) whose final cache is
empty. -/
theorem sync_dir_clears_cache_on_success_witness :
    (sync_dir 3 ["A"] ["B"] ⟨FsNode.dir 0 [("A", FsNode.dir 0 [])], [], 0⟩).1
      = Except.ok ()
    ∧ (sync_dir 3 ["A"] ["B"] ⟨FsNode.dir 0 [("A", FsNode.dir 0 [])], [], 0⟩).2.cache
      = [] :=
  ⟨rfl, sync_dir_clears_cache_on_success 3 ["A"] ["B"] _ rfl⟩

/-! Model of `rimraf` (fs.rs 82-143) with the permission-recovery path.
Leaves carry the observable failure modes of the removal syscall: a
read-only attribute (whose removal attempt fails with `PermissionDenied`
until the attribute is cleared) and a `sticky` marker for any other
persistent removal failure.  Directories recurse and are then removed. -/

inductive RmErr where
  | permissionDenied
  | otherErr
  deriving DecidableEq

/-- One removal attempt (`fs::remove_file` / `fs::remove_dir` for a
symlinked directory): a sticky entry fails with a non-permission error, a
read-only entry fails with `PermissionDenied`, anything else succeeds. -/
def rmOnce (readonly sticky : Bool) : Option RmErr :=
  if sticky then some RmErr.otherErr
  else if readonly then some RmErr.permissionDenied
  else none

/-- Trace of `remove_entry` (fs.rs 83-101): its result, how many removal
attempts it made, and whether it cleared the read-only attribute. -/
structure RemoveTrace where
  result : Except RmErr Unit
  attempts : Nat
  clearedReadonly : Bool

/-- fs.rs 83-101: try to remove the entry; on `PermissionDenied` clear
the read-only attribute via `set_permissions` and retry exactly once,
propagating the retry's outcome; any other error aborts immediately. -/
def remove_entry (readonly sticky : Bool) : RemoveTrace :=
  match rmOnce readonly sticky with
  | none => ⟨Except.ok (), 1, false⟩
  | some RmErr.permissionDenied =>
    match rmOnce false sticky with
    | none => ⟨Except.ok (), 2, true⟩
    | some e => ⟨Except.error e, 2, true⟩
  | some e => ⟨Except.error e, 1, false⟩

/-- A tree of removable entries: leaves are files (or symlinked
directories) removed by `remove_entry`; directories recurse. -/
inductive RTree where
  | leaf (readonly : Bool) (sticky : Bool)
  | dir (entries : List (String × RTree))

mutual
/-- fs.rs 103-118 `rimraf_impl` / 126-142 dispatch: directories remove
their entries first (first failure aborts) and then themselves; leaves go
through `remove_entry`. -/
def rimrafNode : RTree → Except RmErr Unit
  | RTree.leaf ro sk => (remove_entry ro sk).result
  | RTree.dir es => rimrafEntries es

def rimrafEntries : List (String × RTree) → Except RmErr Unit
  | [] => Except.ok ()
  | (_, t) :: rest =>
    match rimrafNode t with
    | Except.ok _ => rimrafEntries rest
    | Except.error e => Except.error e
end

/-- fs.rs 120-125: `symlink_metadata` on a missing path yields `NotFound`
and `rimraf` returns `Ok(())`; otherwise the node is removed. -/
def rimraf (t : Option RTree) : Except RmErr Unit :=
  match t with
  | none => Except.ok ()
  | some n => rimrafNode n

/-- C4: `rimraf` on a nonexistent path returns success; a leaf removal
failing with `PermissionDenied` has its read-only attribute cleared and
is retried exactly once (two attempts total), after which it succeeds;
any other removal failure aborts with that error after a single attempt
and no attribute change; and the recovery also applies to read-only
leaves nested in a directory tree. -/
theorem rimraf_error_handling :
    rimraf none = Except.ok ()
    ∧ (∀ ro : Bool,
        (remove_entry ro false).result = Except.ok ()
        ∧ (remove_entry ro false).attempts = (if ro then 2 else 1)
        ∧ (remove_entry ro false).clearedReadonly = ro)
    ∧ (∀ ro : Bool,
        (remove_entry ro true).result = Except.error RmErr.otherErr
        ∧ (remove_entry ro true).attempts = 1
        ∧ (remove_entry ro true).clearedReadonly = false)
    ∧ (∀ ro : Bool, rimraf (some (RTree.leaf ro false)) = Except.ok ())
    ∧ rimraf (some (RTree.leaf false true)) = Except.error RmErr.otherErr
    ∧ rimraf (some (RTree.dir [("a", RTree.leaf true false),
                               ("b", RTree.leaf false false)])) = Except.ok () := by
  refine ⟨rfl, ?_, ?_, ?_, rfl, rfl⟩
  · intro ro
    cases ro <;> exact ⟨rfl, rfl, rfl⟩
  · intro ro
    cases ro <;> exact ⟨rfl, rfl, rfl⟩
  · intro ro
    cases ro <;> rfl

/-- Model of `is_dir_empty` (fs.rs 145-148): the Rust body is
`Ok(!path.is_dir() || path.read_dir()?.next().is_none())`; the
short-circuiting `||` means `read_dir` only runs when the path is an
existing directory. -/
def is_dir_empty (fs : FsNode) (p : FsPath) : Except FsErr Bool :=
  match lookupNode fs p with
  | some (FsNode.dir _ es) => Except.ok es.isEmpty
  | _ => Except.ok true

/-- C10: `is_dir_empty` returns `true` for every path that is not an
existing directory (nonexistent paths and regular files included), and
for an existing directory it returns `true` exactly when the directory
has no entries. -/
theorem is_dir_empty_spec (fs : FsNode) (p : FsPath) :
    (is_some_and (statPath fs p) (fun m => m.isDir) = false →
      is_dir_empty fs p = Except.ok true)
    ∧ (∀ t es, lookupNode fs p = some (FsNode.dir t es) →
        is_dir_empty fs p = Except.ok es.isEmpty) := by
  constructor
  · intro h
    unfold is_dir_empty
    rcases hl : lookupNode fs p with _ | n
    · rfl
    · cases n with
      | file s t => rfl
      | dir t es =>
        exfalso
        simp [is_some_and, statPath, hl, FsNode.metadataOf] at h
  · intro t es hl
    unfold is_dir_empty
    rw [hl]

/-- Witness for C10 at concrete inputs: a missing path and a file path
give `true`; a nonempty directory gives `false`. -/
theorem is_dir_empty_spec_witness :
    is_dir_empty exRootA ["missing"] = Except.ok true
    ∧ is_dir_empty exRootA ["A", "x"] = Except.ok true
    ∧ is_dir_empty exRootA ["A"] = Except.ok false :=
  ⟨(is_dir_empty_spec exRootA ["missing"]).1 rfl,
   (is_dir_empty_spec exRootA ["A", "x"]).1 rfl,
   (is_dir_empty_spec exRootA ["A"]).2 0 [("x", FsNode.file 0 100)] rfl⟩

/-! The pipeline runner's staging and export stages (runner.rs 7-96).
The staging stage's content claim (C5) is settled over the path-based
filesystem model above, by evaluating the very `sync_dir` the stage
invokes: its behaviour on stale workspace state is exactly what decides
the claim, so no interface idealization of `sync_dir` is used.  The
export-stage claims (C6, C7) are about which `sync_dir` calls run in
which mode, not about their content effects, and are modelled as
world-level bookkeeping of the calls performed. -/

/-- Staging-stage world for C5: the project's behavior-pack source at
`packs/BP` holds one file `x` (size 0, mtime 100); the temp workspace's
`tmp/bp` is a stale real directory (not a symlink) left over from an
earlier run — runner.rs removes `temp.root` only when `clean` is set
(lines 22-24), so temp contents persist across runs — and it contains a
stale empty directory `x` whose metadata is (size 0, mtime 100). -/
def stageRoot : FsNode :=
  FsNode.dir 0
    [("packs", FsNode.dir 0 [("BP", FsNode.dir 0 [("x", FsNode.file 0 100)])]),
     ("tmp", FsNode.dir 0 [("bp", FsNode.dir 0 [("x", FsNode.dir 100 [])])])]

/-- The compat / no-export staging of a present behavior pack
(runner.rs 29-41): `if temp.bp.is_symlink() { rimraf(&temp.bp)?; }` is a
no-op here because `tmp/bp` is a real directory, after which the stage is
exactly `sync_dir(bp, &temp.bp)`. -/
def stageCall : Except FsErr Unit × SyncState :=
  sync_dir 9 ["packs", "BP"] ["tmp", "bp"] ⟨stageRoot, [], 0⟩

/-- C5: the claim states that after staging with export strategy `None`
or `compat=true`, the workspace's `bp` entry is a real directory
containing a copy of the source tree.  The code violates the content
half: on `stageRoot` the staging sync succeeds and leaves `tmp/bp` a real
directory (not a link), but the directory is NOT a copy of the source —
the source file `x` is missing from it, dropped by the same `sync_dir`
defect established for C1/C2 (the stale `tmp/bp/x` directory is removed
and the copy skipped because `compare_files` reads the removed
directory's cached metadata, which coincides with the file's
size+mtime).  The direct-mode half of the claim rests on the same
"`sync_dir` produces a copy" assumption at the export target, which
likewise persists across runs. -/
theorem staging_real_dir_missing_source_file :
    stageCall.1 = Except.ok ()
    ∧ isDirOnDisk stageCall.2.fs ["tmp", "bp"] = true
    ∧ lookupNode stageRoot ["packs", "BP", "x"] = some (FsNode.file 0 100)
    ∧ lookupNode stageCall.2.fs ["tmp", "bp", "x"] = none :=
  ⟨rfl, rfl, rfl, rfl⟩

/-- One workspace entry: missing, a real directory holding a tree, or a
directory symlink to a named target location. -/
inductive WsEntry where
  | absent
  | realDir (content : FsNode)
  | link (target : String)

/-- Inputs of one `runner` invocation: the configured source packs
(`None` when the project lacks one), the persistent data tree, the export
strategy tag, and the `compat`/`clean` flags. -/
structure RunnerCfg where
  bp : Option FsNode
  rp : Option FsNode
  dataTree : FsNode
  is_none_export : Bool
  compat : Bool
  clean : Bool

/-- Mutable world as the runner sees it: the three temp workspace entries
and the contents at the two resolved export targets (`none` when the
target path does not exist). -/
structure RunnerSt where
  tempBp : WsEntry
  tempRp : WsEntry
  tempData : WsEntry
  targetBp : Option FsNode
  targetRp : Option FsNode

def wsContent : WsEntry → FsNode
  | WsEntry.realDir c => c
  | WsEntry.absent => FsNode.dir 0 []
  | WsEntry.link _ => FsNode.dir 0 []

/-- runner.rs 77-92, the `Export project` stage: `export` holds exactly
when the run is in compat mode and the export strategy is not `None`; for
each configured pack the target path is printed and, only when `export`
holds, the temp entry is synchronized back to the resolved target.  The
returned list names the `sync_dir` calls performed. -/
def exportProjectStage (cfg : RunnerCfg) (st : RunnerSt) : RunnerSt × List String :=
  let doExport := cfg.compat && !cfg.is_none_export
  let step₁ :=
    if cfg.bp.isSome then
      if doExport then ({ st with targetBp := some (wsContent st.tempBp) }, ["bp"])
      else (st, ([] : List String))
    else (st, ([] : List String))
  let step₂ :=
    if cfg.rp.isSome then
      if doExport then
        ({ step₁.1 with targetRp := some (wsContent step₁.1.tempRp) }, ["rp"])
      else (step₁.1, ([] : List String))
    else (step₁.1, ([] : List String))
  (step₂.1, step₁.2 ++ step₂.2)

/-- C6: the export-project stage synchronizes a configured pack's temp
entry back to its resolved export target exactly when the run is in
compat mode and the export strategy is not `None`; otherwise (direct mode
or no-export) the stage performs no synchronization and leaves the world
untouched. -/
theorem export_project_syncs_iff (cfg : RunnerCfg) (st : RunnerSt) :
    ("bp" ∈ (exportProjectStage cfg st).2 ↔
      cfg.bp.isSome = true ∧ cfg.compat = true ∧ cfg.is_none_export = false)
    ∧ ("rp" ∈ (exportProjectStage cfg st).2 ↔
      cfg.rp.isSome = true ∧ cfg.compat = true ∧ cfg.is_none_export = false)
    ∧ ((cfg.compat = false ∨ cfg.is_none_export = true) →
      (exportProjectStage cfg st).2 = [] ∧ (exportProjectStage cfg st).1 = st) := by
  rcases hbp : cfg.bp with _ | b <;> rcases hrp : cfg.rp with _ | r <;>
    cases hc : cfg.compat <;> cases hn : cfg.is_none_export <;>
      simp [exportProjectStage, hbp, hrp, hc, hn]

/-- Witness for C6: in direct mode (compat off, resolved export target)
the stage performs no synchronization. -/
theorem export_project_syncs_iff_witness :
    (exportProjectStage
      ⟨some (FsNode.dir 0 []), none, FsNode.dir 0 [], false, false, false⟩
      ⟨WsEntry.absent, WsEntry.absent, WsEntry.absent, none, none⟩).2 = [] :=
  ((export_project_syncs_iff
      ⟨some (FsNode.dir 0 []), none, FsNode.dir 0 [], false, false, false⟩
      ⟨WsEntry.absent, WsEntry.absent, WsEntry.absent, none, none⟩).2.2
    (Or.inl rfl)).1

/-- runner.rs 65-75, the `Export data` stage: for each data-folder name
declared by the filter run, the staged folder is synchronized back into
the persistent data directory only when `temp.data.join(name)` exists as
a directory.  The result lists the names whose folders are synchronized
back (each written to `data.join(name)`). -/
def exportDataStage (tempData : FsNode) (dataNames : List String) : List String :=
  dataNames.filter (fun name =>
    is_some_and (statPath tempData [name]) (fun m => m.isDir))

/-- C7: every declared name whose folder exists under the temp data root
is synchronized back, and nothing outside the declared set is written:
every performed sync is for a declared name whose staged folder exists. -/
theorem export_data_allowlist (tempData : FsNode) (declared : List String) :
    (∀ name ∈ declared,
      is_some_and (statPath tempData [name]) (fun m => m.isDir) = true →
        name ∈ exportDataStage tempData declared)
    ∧ (∀ name ∈ exportDataStage tempData declared,
        name ∈ declared
        ∧ is_some_and (statPath tempData [name]) (fun m => m.isDir) = true) := by
  constructor
  · intro name hmem hdir
    rw [exportDataStage, List.mem_filter]
    exact ⟨hmem, hdir⟩
  · intro name hmem
    rw [exportDataStage, List.mem_filter] at hmem
    exact ⟨hmem.1, hmem.2⟩

/-- Staged data root used by the C7 witness: `f1` is a directory, `f2` a
file. -/
def wsData : FsNode := FsNode.dir 0 [("f1", FsNode.dir 0 []), ("f2", FsNode.file 1 2)]

/-- Witness for C7: the declared, existing folder `f1` is synchronized
back. -/
theorem export_data_allowlist_witness :
    "f1" ∈ exportDataStage wsData ["f1", "f2", "f3"] :=
  (export_data_allowlist wsData ["f1", "f2", "f3"]).1 "f1" (by simp) rfl

/-! Model of `FileWatcher::wait_debounced` (file_watcher.rs 48-66).
Time is discrete; a run of the primitive is characterized by the sorted
absolute arrival times of the change signals on the channel.  A queued
signal (arrival time at or before the current instant) is received
immediately.  Each loop iteration starting at instant `t` races the next
signal against a timer firing at `t + timeout`; `smol::future::or` polls
the change branch first, so the signal wins whenever it is delivered no
later than the timer fires. -/

/-- The debounce loop (file_watcher.rs 50-65): at instant `t` with
remaining signal times `rest`, the timer wins (returning at `t + w`)
unless the next signal arrives by `t + w`, in which case the window
restarts at the signal's delivery instant. -/
def debounceLoop (w : Nat) : Nat → List Nat → Nat
  | t, [] => t + w
  | t, s :: rest => if s ≤ t + w then debounceLoop w (max t s) rest else t + w

/-- file_watcher.rs 48-66: wait for the first change, then run the
debounce loop; with no signal ever arriving the primitive never returns
(`none`).  The call starts at instant 0, so the first signal is received
at its own arrival time. -/
def wait_debounced (w : Nat) (sigs : List Nat) : Option Nat :=
  match sigs with
  | [] => none
  | s :: rest => some (debounceLoop w s rest)

/-- Helper: along a chain of signals each arriving within `w` of the
previous one, the debounce loop returns exactly at the last signal plus
the full quiet window. -/
theorem debounceLoop_eq_last (w : Nat) :
    ∀ (rest : List Nat) (t : Nat),
      List.Chain' (fun a b => a ≤ b ∧ b < a + w) (t :: rest) →
      debounceLoop w t rest = (t :: rest).getLast (by simp) + w := by
  intro rest
  induction rest with
  | nil =>
    intro t _
    simp [debounceLoop]
  | cons s rest ih =>
    intro t hc
    rw [List.chain'_cons] at hc
    obtain ⟨⟨hts, hlt⟩, hc₂⟩ := hc
    have h₁ : s ≤ t + w := Nat.le_of_lt hlt
    have h₂ : max t s = s := Nat.max_eq_right hts
    rw [debounceLoop, if_pos h₁, h₂, ih s hc₂]
    simp [List.getLast_cons]

/-- C8: `wait_debounced` first waits for one change signal and returns
only after a full quiet window with no further signal: for signals each
spaced less than the quiet window after the previous one, it returns
exactly at the last signal's time plus the quiet window (in particular,
never earlier). -/
theorem wait_debounced_returns_after_quiet (w s : Nat) (rest : List Nat)
    (hchain : List.Chain' (fun a b => a ≤ b ∧ b < a + w) (s :: rest)) :
    wait_debounced w (s :: rest) = some ((s :: rest).getLast (by simp) + w) := by
  rw [wait_debounced, debounceLoop_eq_last w rest s hchain]

/-- Witness for C8: quiet window 5, signals at instants 0, 3 and 6 (gaps
of 3 < 5): the primitive returns at instant 11 = 6 + 5. -/
theorem wait_debounced_returns_after_quiet_witness :
    wait_debounced 5 [0, 3, 6] = some 11 :=
  wait_debounced_returns_after_quiet 5 0 [3, 6] (by
    refine List.chain'_cons.mpr ⟨⟨?_, ?_⟩,
      List.chain'_cons.mpr ⟨⟨?_, ?_⟩, List.chain'_singleton 6⟩⟩ <;> decide)

/-! Model of one iteration of the `watch` command's loop
(watch.rs 41-70).  The iteration races the pipeline run against the
watcher's change-wait; the runner branch returns `false` for
`is_interrupted` whether the run succeeded or failed (a failure is only
logged, watch.rs 43-46), while the watcher branch returns `true`. -/

/-- Which future won the race, and — when the runner finished — whether
its run succeeded. -/
inductive RaceWinner where
  | runnerFinished (ok : Bool)
  | watcherFired

def reloadCommand : String := "reload"

def reloadMessage : String :=
  "tellraw @s \x7b\"rawtext\": [\x7b\"translate\": \"commands.reload.success\"\x7d]\x7d"

structure CycleResult where
  is_interrupted : Bool
  sent : List String

/-- watch.rs 41-70: compute `is_interrupted` from the race; when the
cycle was not interrupted and `--ws` is enabled, send the reload command
and the confirmation message over the reload channel. -/
def watchCycle (ws : Bool) (winner : RaceWinner) : CycleResult :=
  let is_interrupted :=
    match winner with
    | RaceWinner.runnerFinished _ => false
    | RaceWinner.watcherFired => true
  let sent :=
    if ws && !is_interrupted then [reloadCommand, reloadMessage] else []
  ⟨is_interrupted, sent⟩

/-- C9, counterexample: with `--ws` enabled, a cycle whose pipeline run
FAILED (`runnerFinished false`: the error is logged and the race still
reports "not interrupted") nevertheless sends the reload command and the
user-visible confirmation message — contradicting the claim that they are
sent only when the run completed successfully. -/
theorem watch_reload_sent_after_failed_run :
    (watchCycle true (RaceWinner.runnerFinished false)).sent
      = [reloadCommand, reloadMessage]
    ∧ (watchCycle true (RaceWinner.runnerFinished false)).is_interrupted = false :=
  ⟨rfl, rfl⟩

/-- C9, amended: the reload command and confirmation message are sent
after a cycle if and only if `--ws` is enabled and the cycle was not
interrupted by a change signal; the pipeline run's success is not
consulted — a failed but uninterrupted run still triggers them, the
failure being only logged. -/
theorem watch_reload_sent_iff (ws : Bool) (winner : RaceWinner) :
    (watchCycle ws winner).sent ≠ [] ↔
      ws = true ∧ (watchCycle ws winner).is_interrupted = false := by
  cases ws <;> cases winner <;> simp [watchCycle]
